import Mathlib

/-!
Verification development for the SafeDetect repository (C++ sources under
src/backend_cpp and src/cpp_implementation).  The detection pipeline,
the NMS detection filter, zone classification, alerting, publishing and
the camera reconnect loop are shallowly embedded below; machine floats
are modelled by exact rationals, the one float-specific behaviour that
matters (0/0 producing NaN) is modelled explicitly with Option.
-/

namespace SafeDetect

/-! ## nms.hpp : Detection, IoU, NMS -/

/-- Detection record of nms.hpp: bounding box corners, confidence, class id. -/
structure Det where
  x1 : ℚ
  y1 : ℚ
  x2 : ℚ
  y2 : ℚ
  confidence : ℚ
  class_id : ℤ
deriving DecidableEq, Repr

/-- Intersection area computed by IoU in nms.hpp:
w = max(0, xx2-xx1), h = max(0, yy2-yy1), inter = w*h. -/
def interArea (a b : Det) : ℚ :=
  (max 0 (min a.x2 b.x2 - max a.x1 b.x1)) * (max 0 (min a.y2 b.y2 - max a.y1 b.y1))

/-- Signed box area (a.x2-a.x1)*(a.y2-a.y1) as computed in IoU of nms.hpp. -/
def area (a : Det) : ℚ := (a.x2 - a.x1) * (a.y2 - a.y1)

/-- unionArea = areaA + areaB - inter, from IoU in nms.hpp. -/
def unionArea (a b : Det) : ℚ := area a + area b - interArea a b

/-- IoU of nms.hpp returns inter / unionArea as a float.  When unionArea is 0
the C float division 0.0f/0.0f produces NaN (the intersection is provably 0
whenever the union is 0), modelled here as none; otherwise the quotient is
exact and modelled as some. -/
def IoU (a b : Det) : Option ℚ :=
  if unionArea a b = 0 then none else some (interArea a b / unionArea a b)

/-- The comparison IoU(a,b) > thr used by NMS in nms.hpp.  A NaN comparison
is false in C, hence the none branch. -/
def iouGT (a b : Det) (thr : ℚ) : Bool :=
  match IoU a b with
  | none => false
  | some q => decide (thr < q)

/-- Suppression test of the inner NMS loop in nms.hpp:
IoU(dets[i], dets[j]) > iou_threshold && dets[i].class_id == dets[j].class_id. -/
def suppressedBy (iouThr : ℚ) (a e : Det) : Bool :=
  iouGT a e iouThr && decide (a.class_id = e.class_id)

/-- Confidence gate of NMS in nms.hpp: keep d iff d.confidence >= conf_threshold. -/
def confPass (confThr : ℚ) (d : Det) : Bool := decide (confThr ≤ d.confidence)

/-- Greedy suppression pass of NMS in nms.hpp over the confidence-sorted
list.  The code walks the sorted vector with a suppressed-flags array: a
detection is skipped iff some previously accepted detection of the same
class overlaps it with IoU above the threshold; accepted, it marks the
later overlapping same-class detections.  Both views coincide; here the
accepted prefix is threaded as an accumulator. -/
def suppressLoop (iouThr : ℚ) (accepted : List Det) : List Det → List Det
  | [] => []
  | d :: rest =>
    if accepted.any (fun a => suppressedBy iouThr a d) then suppressLoop iouThr accepted rest
    else d :: suppressLoop iouThr (accepted ++ [d]) rest

/-- Comparator of the std::sort call in NMS (nms.hpp line 39): descending
confidence.  The sorted list satisfies pairwise confGE. -/
def confGE (a b : Det) : Prop := b.confidence ≤ a.confidence

instance : DecidableRel confGE := fun a b => inferInstanceAs (Decidable (b.confidence ≤ a.confidence))

instance : IsTotal Det confGE := ⟨fun a b => le_total b.confidence a.confidence⟩

instance : IsTrans Det confGE := ⟨fun _ _ _ h h2 => le_trans h2 h⟩

/-- What std::sort guarantees for the sort call in NMS: the result is some
permutation of its input that is sorted by confidence descending.  Tie
order among equal confidences is unspecified by the C++ standard. -/
def sortOutcome (input out : List Det) : Prop :=
  out.Perm input ∧ out.Pairwise confGE

/-- Admissible results of NMS in nms.hpp under the std::sort contract:
some confidence-sorted permutation of the confidence-gated input,
followed by the (deterministic) greedy suppression pass. -/
def nmsOutcome (iouThr confThr : ℚ) (input out : List Det) : Prop :=
  ∃ s, sortOutcome (input.filter (confPass confThr)) s ∧ out = suppressLoop iouThr [] s

/-! ## config.hpp (backend_cpp): constants, zones, classes -/

/-- MODEL_CONFIDENCE = 0.25f from config.hpp (exactly representable). -/
def MODEL_CONFIDENCE : ℚ := 1/4

/-- Blind-spot zone rectangle from config.hpp. -/
structure BlindSpotZone where
  x_min : ℚ
  x_max : ℚ
  y_min : ℚ
  y_max : ℚ
deriving DecidableEq, Repr

/-- BLIND_SPOT_ZONES map from config.hpp (same values in the
cpp_implementation Config.hpp); lookup of the unordered_map. -/
def BLIND_SPOT_ZONES (zone : String) : Option BlindSpotZone :=
  if zone = "left" then some ⟨0, 3/10, 2/10, 8/10⟩
  else if zone = "right" then some ⟨7/10, 1, 2/10, 8/10⟩
  else if zone = "rear" then some ⟨3/10, 7/10, 7/10, 1⟩
  else none

/-- OBJECT_CLASSES map from config.hpp: the class allow-list. -/
def OBJECT_CLASSES (cid : ℤ) : Option String :=
  if cid = 0 then some "person"
  else if cid = 2 then some "car"
  else if cid = 3 then some "motorcycle"
  else none

/-- POSITION_SCALE = {1.5f, 1.0f, 1.0f} from config.hpp. -/
def POSITION_SCALE_X : ℚ := 3/2

/-- POSITION_SCALE.y from config.hpp. -/
def POSITION_SCALE_Y : ℚ := 1

/-- Detection record of config.hpp (backend_cpp), with the nested position. -/
structure Detection where
  object : String
  pos_x : ℚ
  pos_y : ℚ
  pos_z : ℚ
  pos_zone : String
  confidence : ℚ
  bbox : List ℚ
  class_id : ℤ
  camera_zone : String
  timestamp : ℚ
deriving DecidableEq, Repr

/-! ## multi_camera_detector.cpp (backend_cpp): candidate gate, cap, zone test -/

/-- cv::Rect: integer x, y, width, height. -/
structure Rect where
  x : ℤ
  y : ℤ
  width : ℤ
  height : ℤ
deriving DecidableEq, Repr

/-- OpenCV rectangle intersection (operator &=): intersect, and collapse to
the zero rectangle when the intersection has non-positive width or height. -/
def rectInter (a b : Rect) : Rect :=
  let x1 := max a.x b.x
  let y1 := max a.y b.y
  let w := min (a.x + a.width) (b.x + b.width) - x1
  let h := min (a.y + a.height) (b.y + b.height) - y1
  if w ≤ 0 ∨ h ≤ 0 then ⟨0, 0, 0, 0⟩ else ⟨x1, y1, w, h⟩

/-- One row of the YOLO output tensor read in process_all_cameras:
[x, y, w, h, conf, cls], all floats, modelled as rationals. -/
structure RawCandidate where
  x : ℚ
  y : ℚ
  w : ℚ
  h : ℚ
  confidence : ℚ
  cls : ℚ
deriving DecidableEq, Repr

/-- static_cast<int> on a float truncates toward zero; on exact rationals
this is t-division of the numerator by the denominator. -/
def ratTrunc (q : ℚ) : ℤ := Int.tdiv q.num q.den

/-- class_id = static_cast<int>(data[offset+5]) in process_all_cameras. -/
def classId (c : RawCandidate) : ℤ := ratTrunc c.cls

/-- The extra label restriction of the candidate gate (lines 175-177 of
multi_camera_detector.cpp): class id present in OBJECT_CLASSES and its
label equal to person or car. -/
def labelAllowed (cid : ℤ) : Bool :=
  match OBJECT_CLASSES cid with
  | some l => l == "person" || l == "car"
  | none => false

/-- x1 = static_cast<int>(x - w/2) of the candidate box. -/
def cx1 (c : RawCandidate) : ℤ := ratTrunc (c.x - c.w / 2)

/-- y1 = static_cast<int>(y - h/2) of the candidate box. -/
def cy1 (c : RawCandidate) : ℤ := ratTrunc (c.y - c.h / 2)

/-- x2 = static_cast<int>(x + w/2) of the candidate box. -/
def cx2 (c : RawCandidate) : ℤ := ratTrunc (c.x + c.w / 2)

/-- y2 = static_cast<int>(y + h/2) of the candidate box. -/
def cy2 (c : RawCandidate) : ℤ := ratTrunc (c.y + c.h / 2)

/-- bbox after clipping to the frame boundary:
bbox &= cv::Rect(0, 0, frame.cols, frame.rows). -/
def clippedBox (frameW frameH : ℤ) (c : RawCandidate) : Rect :=
  rectInter ⟨cx1 c, cy1 c, cx2 c - cx1 c, cy2 c - cy1 c⟩ ⟨0, 0, frameW, frameH⟩

/-- First stage of the Detection Filter, lines 164-200 of
multi_camera_detector.cpp: confidence gate (strict >), class allow-list plus
person/car label restriction, rejection of non-positive boxes, clipping to
the frame, rejection of clipped boxes below 10000 px².  Returns the clipped
box, confidence and class id of a retained candidate, none for a dropped one. -/
def candidateGate (frameW frameH : ℤ) (c : RawCandidate) : Option (Rect × ℚ × ℤ) :=
  if MODEL_CONFIDENCE < c.confidence ∧ labelAllowed (classId c) = true then
    if cx2 c ≤ cx1 c ∨ cy2 c ≤ cy1 c ∨ c.w ≤ 0 ∨ c.h ≤ 0 then none
    else if (clippedBox frameW frameH c).width ≤ 0 ∨ (clippedBox frameW frameH c).height ≤ 0 then
      none
    else if (clippedBox frameW frameH c).width * (clippedBox frameW frameH c).height < 10000 then
      none
    else some (clippedBox frameW frameH c, c.confidence, classId c)
  else none

/-- All candidates of one frame that survive the first-stage gate, in
discovery order (the boxes/confidences/classIds vectors of the code). -/
def gatedCandidates (frameW frameH : ℤ) (cands : List RawCandidate) : List (Rect × ℚ × ℤ) :=
  cands.filterMap (candidateGate frameW frameH)

/-- Comparator of the std::sort over NMS indices in process_all_cameras
(lines 209-211): descending confidence of the indexed candidate. -/
def pairConfGE (a b : Rect × ℚ × ℤ) : Prop := b.2.1 ≤ a.2.1

instance : DecidableRel pairConfGE := fun a b => inferInstanceAs (Decidable (b.2.1 ≤ a.2.1))

instance : IsTotal (Rect × ℚ × ℤ) pairConfGE := ⟨fun a b => le_total b.2.1 a.2.1⟩

instance : IsTrans (Rect × ℚ × ℤ) pairConfGE := ⟨fun _ _ _ h h2 => le_trans h2 h⟩

/-- Lines 207-214 of multi_camera_detector.cpp: if the index list returned
by cv::dnn::NMSBoxes is non-empty, sort it by confidence descending and
resize it to the cap (the code writes the literal 1; resize on a non-empty
vector truncates, i.e. takes the prefix).  Indices into the candidate
vectors are represented by the selected candidates themselves. -/
def capStage (cap : ℕ) (kept : List (Rect × ℚ × ℤ)) : List (Rect × ℚ × ℤ) :=
  if kept.isEmpty then [] else (List.insertionSort pairConfGE kept).take cap

/-- calculate_detection of multi_camera_detector.cpp (lines 273-307);
now is the wall-clock timestamp, an input of the model. -/
def calculate_detection (bbox : Rect) (frame_width frame_height : ℤ)
    (zone : String) (class_id : ℤ) (confidence : ℚ) (now : ℚ) : Detection :=
  let x_center : ℚ := ((bbox.x : ℚ) + (bbox.width : ℚ) / 2) / (frame_width : ℚ)
  let y_center : ℚ := ((bbox.y : ℚ) + (bbox.height : ℚ) / 2) / (frame_height : ℚ)
  { object := (OBJECT_CLASSES class_id).getD ""
    pos_x := x_center * POSITION_SCALE_X
    pos_y := y_center * POSITION_SCALE_Y
    pos_z := if zone = "left" then 4 else if zone = "right" then -5
             else if zone = "rear" then 0 else 0
    pos_zone := zone
    confidence := confidence
    bbox := [(bbox.x : ℚ), (bbox.y : ℚ), ((bbox.x + bbox.width : ℤ) : ℚ),
             ((bbox.y + bbox.height : ℤ) : ℚ)]
    class_id := class_id
    camera_zone := zone
    timestamp := now }

/-- Per-camera detections of one cycle (lines 202-220 of
multi_camera_detector.cpp).  sel is the selection returned by the external
collaborator cv::dnn::NMSBoxes (a subset of the gated candidates); the cap
stage with the coded cap 1 is applied and each survivor is turned into a
Detection by calculate_detection. -/
def perCameraDetections (frameW frameH : ℤ) (zone : String) (now : ℚ)
    (sel : List (Rect × ℚ × ℤ)) : List Detection :=
  (capStage 1 sel).map fun t => calculate_detection t.1 frameW frameH zone t.2.2 t.2.1 now

/-- is_in_blind_spot of multi_camera_detector.cpp (lines 264-271): unknown
zones fall out of the map lookup and yield false; otherwise the inclusive
rectangle containment test. -/
def is_in_blind_spot (x_center y_center : ℚ) (zone : String) : Bool :=
  match BLIND_SPOT_ZONES zone with
  | none => false
  | some z =>
    decide (z.x_min ≤ x_center) && decide (x_center ≤ z.x_max) &&
    decide (z.y_min ≤ y_center) && decide (y_center ≤ z.y_max)

/-- The blind-spot collection loop of process_all_cameras (lines 241-248):
each detection has its position divided back by POSITION_SCALE and tested. -/
def blindSpotDetections (dets : List Detection) : List Detection :=
  dets.filter fun d =>
    is_in_blind_spot (d.pos_x / POSITION_SCALE_X) (d.pos_y / POSITION_SCALE_Y) d.camera_zone

/-- Number of play_alert_sound calls issued by one process_all_cameras cycle
(lines 250-253): one when the blind-spot list is non-empty, zero otherwise. -/
def alertInvocations (dets : List Detection) : ℕ :=
  if (blindSpotDetections dets).isEmpty then 0 else 1

/-! ## cpp_implementation: zone test with map::at -/

/-- isInBlindSpot of cpp_implementation MultiCameraDetector.cpp (lines
246-250): BLIND_SPOT_ZONES.at(zone) throws std::out_of_range for a zone
that is not in the map, modelled as Except.error; otherwise the inclusive
containment test. -/
def isInBlindSpot (x_center y_center : ℚ) (zone : String) : Except String Bool :=
  match BLIND_SPOT_ZONES zone with
  | none => Except.error "std::out_of_range"
  | some z => Except.ok
      (decide (z.x_min ≤ x_center) && decide (x_center ≤ z.x_max) &&
       decide (z.y_min ≤ y_center) && decide (y_center ≤ z.y_max))

/-! ## Publishers (kafka_producer.cpp and cpp_implementation KafkaProducer.cpp) -/

/-- Minimal JSON value model for the message payloads. -/
inductive Json where
  | num (q : ℚ)
  | str (s : String)
  | arr (xs : List Json)
  | obj (fields : List (String × Json))

/-- Detection::to_json from config.hpp (backend_cpp). -/
def Detection.to_json (d : Detection) : Json :=
  Json.obj [("object", Json.str d.object),
            ("position", Json.obj [("x", Json.num d.pos_x), ("y", Json.num d.pos_y),
                                   ("z", Json.num d.pos_z), ("zone", Json.str d.pos_zone)]),
            ("confidence", Json.num d.confidence),
            ("bbox", Json.arr (d.bbox.map Json.num)),
            ("class_id", Json.num d.class_id),
            ("camera_zone", Json.str d.camera_zone),
            ("timestamp", Json.num d.timestamp)]

/-- State of DetectionKafkaProducer in kafka_producer.cpp. -/
structure ProducerState where
  is_running : Bool
  hasProducer : Bool
deriving DecidableEq, Repr

/-- send_detections of kafka_producer.cpp (lines 41-61), returning the list
of payloads handed to the Detection Sink (producer_->produce): when the
producer is running it produces exactly one message, the JSON array of the
given detections, with no emptiness check. -/
def send_detections (st : ProducerState) (dets : List Detection) : List Json :=
  if st.is_running && st.hasProducer then [Json.arr (dets.map Detection.to_json)]
  else []

/-- The call site of send_detections in process_all_cameras (lines 224-226):
the producer is invoked only for a non-empty per-camera detection list. -/
def publishStep (st : ProducerState) (dets : List Detection) : List Json :=
  if dets.isEmpty then [] else send_detections st dets

/-- Detection of the cpp_implementation (Detection.hpp/Detection.cpp). -/
structure DetectionI where
  boundingBox : Rect
  confidence : ℚ
  objectClass : String
  pos_x : ℚ
  pos_y : ℚ
  pos_z : ℚ
  pos_zone : String
  cameraZone : String
  timestamp : ℤ
deriving DecidableEq, Repr

/-- Detection::toJson from Detection.cpp (cpp_implementation). -/
def DetectionI.toJson (d : DetectionI) : Json :=
  Json.obj [("bounding_box", Json.obj [("x", Json.num d.boundingBox.x),
                                       ("y", Json.num d.boundingBox.y),
                                       ("width", Json.num d.boundingBox.width),
                                       ("height", Json.num d.boundingBox.height)]),
            ("confidence", Json.num d.confidence),
            ("object", Json.str d.objectClass),
            ("position", Json.obj [("x", Json.num d.pos_x), ("y", Json.num d.pos_y),
                                   ("z", Json.num d.pos_z), ("zone", Json.str d.pos_zone)]),
            ("camera_zone", Json.str d.cameraZone),
            ("timestamp", Json.num d.timestamp)]

/-- KafkaProducer::sendDetections of cpp_implementation KafkaProducer.cpp
(lines 74-115): builds the envelope message, performs exactly one produce
call (the Detection Sink accepting it is the non-error path) and returns
true; there is no emptiness check.  Result: sink payloads and return value. -/
def sendDetections (now : ℤ) (dets : List DetectionI) : List Json × Bool :=
  ([Json.obj [("type", Json.str "detections"),
              ("timestamp", Json.num now),
              ("detections", Json.arr (dets.map DetectionI.toJson))]], true)

/-! ## cpp_implementation camera loop (processCameraFeeds, lines 161-196) -/

/-- Camera record of the cpp_implementation orchestrator. -/
structure Camera where
  id : ℤ
  zone : String
  isActive : Bool
deriving DecidableEq, Repr

/-- Environment of one cycle: whether read attempt k of a given camera
succeeds, and whether a reconnect open() of a given camera succeeds. -/
structure CamEnv where
  read : ℤ → ℕ → Bool
  reconnect : ℤ → Bool

/-- One cycle of the per-camera loop in processCameraFeeds, threading the
shared static reconnectAttempt counter through the cameras in order.
Returns the updated cameras, the updated counter, the ids for which a
reconnect was attempted this cycle and the ids whose frame was processed.
An inactive camera increments the shared counter and is otherwise skipped;
when the counter hits a multiple of 100 a reconnect is attempted and on
success the camera becomes active again.  An active camera tries up to 3
reads; if all 3 fail it is marked inactive. -/
def runCameras (env : CamEnv) : List Camera → ℤ → List Camera × ℤ × List ℤ × List ℤ
  | [], ctr => ([], ctr, [], [])
  | cam :: rest, ctr =>
    if cam.isActive then
      let ok := (List.range 3).any fun k => env.read cam.id k
      let cam2 := if ok then cam else { cam with isActive := false }
      let (cs, c2, recs, procs) := runCameras env rest ctr
      (cam2 :: cs, c2, recs, if ok then cam.id :: procs else procs)
    else
      let ctr2 := ctr + 1
      if ctr2 % 100 = 0 then
        let cam2 := if env.reconnect cam.id then { cam with isActive := true } else cam
        let (cs, c2, recs, procs) := runCameras env rest ctr2
        (cam2 :: cs, c2, cam.id :: recs, procs)
      else
        let (cs, c2, recs, procs) := runCameras env rest ctr2
        (cam :: cs, c2, recs, procs)

/-- n cycles of the processCameraFeeds loop; the per-cycle environments are
given by envs; returns the final cameras and counter together with the
list, one entry per cycle, of the camera ids whose reconnect was attempted
in that cycle. -/
def runLoop (envs : ℕ → CamEnv) : ℕ → List Camera → ℤ → List Camera × ℤ × List (List ℤ)
  | 0, cams, ctr => (cams, ctr, [])
  | n + 1, cams, ctr =>
    let (cs, c2, recs, _) := runCameras (envs 0) cams ctr
    let (fc, fctr, rest) := runLoop (fun k => envs (k + 1)) n cs c2
    (fc, fctr, recs :: rest)

/-! ## Helper lemmas -/

theorem interArea_nonneg (a b : Det) : 0 ≤ interArea a b :=
  mul_nonneg (le_max_left 0 _) (le_max_left 0 _)

theorem interArea_pos_areas {a b : Det} (h : 0 < interArea a b) : 0 < area a ∧ 0 < area b := by
  unfold interArea at h
  have hu : 0 < min a.x2 b.x2 - max a.x1 b.x1 := by
    rcases le_or_lt (min a.x2 b.x2 - max a.x1 b.x1) 0 with hle | hlt
    · rw [max_eq_left hle] at h
      simp at h
    · exact hlt
  have hv : 0 < min a.y2 b.y2 - max a.y1 b.y1 := by
    rcases le_or_lt (min a.y2 b.y2 - max a.y1 b.y1) 0 with hle | hlt
    · rw [max_eq_left hle, mul_zero] at h
      exact absurd h (lt_irrefl 0)
    · exact hlt
  have hax1 : a.x1 ≤ max a.x1 b.x1 := le_max_left _ _
  have hax2 : min a.x2 b.x2 ≤ a.x2 := min_le_left _ _
  have hbx1 : b.x1 ≤ max a.x1 b.x1 := le_max_right _ _
  have hbx2 : min a.x2 b.x2 ≤ b.x2 := min_le_right _ _
  have hay1 : a.y1 ≤ max a.y1 b.y1 := le_max_left _ _
  have hay2 : min a.y2 b.y2 ≤ a.y2 := min_le_left _ _
  have hby1 : b.y1 ≤ max a.y1 b.y1 := le_max_right _ _
  have hby2 : min a.y2 b.y2 ≤ b.y2 := min_le_right _ _
  unfold area
  exact ⟨mul_pos (by linarith) (by linarith), mul_pos (by linarith) (by linarith)⟩

theorem labelAllowed_cases {cid : ℤ} (h : labelAllowed cid = true) :
    OBJECT_CLASSES cid = some "person" ∨ OBJECT_CLASSES cid = some "car" := by
  unfold labelAllowed at h
  rcases hoc : OBJECT_CLASSES cid with _ | l
  · rw [hoc] at h
    simp at h
  · rw [hoc] at h
    simp only [Bool.or_eq_true, beq_iff_eq] at h
    rcases h with h | h <;> simp [hoc, h]

theorem mem_capStage {cap : ℕ} {kept : List (Rect × ℚ × ℤ)} {t : Rect × ℚ × ℤ}
    (h : t ∈ capStage cap kept) : t ∈ kept := by
  unfold capStage at h
  split at h
  · simp at h
  · exact (List.perm_insertionSort pairConfGE kept).subset (List.take_subset _ _ h)

theorem gate_label {W H : ℤ} {c : RawCandidate} {t : Rect × ℚ × ℤ}
    (h : candidateGate W H c = some t) :
    OBJECT_CLASSES t.2.2 = some "person" ∨ OBJECT_CLASSES t.2.2 = some "car" := by
  unfold candidateGate at h
  split_ifs at h with h1 h2 h3 h4
  simp only [Option.some.injEq] at h
  subst h
  exact labelAllowed_cases h1.2

/-! ## Claim theorems -/

/-- C1: the cap stage of the Detection Filter returns at most cap entries for
every input and every cap, and with the coded cap 1 every camera contributes
exactly 0 or 1 detection per cycle, never more. -/
theorem C1_cap_bound :
    (∀ (cap : ℕ) (kept : List (Rect × ℚ × ℤ)), (capStage cap kept).length ≤ cap) ∧
    (∀ (frameW frameH : ℤ) (zone : String) (now : ℚ) (sel : List (Rect × ℚ × ℤ)),
      (perCameraDetections frameW frameH zone now sel).length = 0 ∨
      (perCameraDetections frameW frameH zone now sel).length = 1) := by
  have hcap : ∀ (cap : ℕ) (kept : List (Rect × ℚ × ℤ)), (capStage cap kept).length ≤ cap := by
    intro cap kept
    unfold capStage
    split
    · simp
    · simp
  refine ⟨hcap, ?_⟩
  intro W H zone now sel
  have h := hcap 1 sel
  unfold perCameraDetections
  rw [List.length_map]
  omega

/-- C3: one orchestrator cycle fires the Alert Sink exactly once when some
detection of the cycle is classified in-blind-spot, zero times when none is,
and never more than once regardless of how many detections are in the zone. -/
theorem C3_alert_once_per_cycle (dets : List Detection) :
    alertInvocations dets ≤ 1 ∧
    (alertInvocations dets = 1 ↔ ∃ d ∈ dets,
      is_in_blind_spot (d.pos_x / POSITION_SCALE_X) (d.pos_y / POSITION_SCALE_Y) d.camera_zone
        = true) ∧
    (alertInvocations dets = 0 ↔ ∀ d ∈ dets,
      is_in_blind_spot (d.pos_x / POSITION_SCALE_X) (d.pos_y / POSITION_SCALE_Y) d.camera_zone
        = false) := by
  have hiff : (blindSpotDetections dets).isEmpty = true ↔ ∀ d ∈ dets,
      is_in_blind_spot (d.pos_x / POSITION_SCALE_X) (d.pos_y / POSITION_SCALE_Y) d.camera_zone
        = false := by
    unfold blindSpotDetections
    rw [List.isEmpty_iff, List.filter_eq_nil_iff]
    constructor
    · intro h d hd
      simpa using h d hd
    · intro h d hd
      simp [h d hd]
  unfold alertInvocations
  by_cases h : (blindSpotDetections dets).isEmpty
  · rw [if_pos h]
    refine ⟨by omega, ?_, by simpa using hiff.mp h⟩
    constructor
    · omega
    · rintro ⟨d, hd, hblind⟩
      exact absurd hblind (by simp [hiff.mp h d hd])
  · rw [if_neg h]
    refine ⟨le_refl 1, ?_, ?_⟩
    · refine ⟨fun _ => ?_, fun _ => rfl⟩
      by_contra hnone
      push_neg at hnone
      exact h (hiff.mpr fun d hd => by
        have := hnone d hd
        revert this
        cases hb : is_in_blind_spot (d.pos_x / POSITION_SCALE_X) (d.pos_y / POSITION_SCALE_Y)
          d.camera_zone <;> simp)
    · constructor
      · omega
      · intro hall
        exact absurd (hiff.mpr hall) h

/-- C4 counterexample: for the unknown zone identifier front, the
cpp_implementation zone test throws std::out_of_range instead of returning
a not-in-blind-spot decision. -/
theorem C4_counterexample :
    BLIND_SPOT_ZONES "front" = none ∧
    isInBlindSpot (1/2) (1/2) "front" = Except.error "std::out_of_range" := by
  constructor <;> rfl

/-- C4 (amended): for every detection center and every zone identifier not
among the configured zones, the backend_cpp zone test returns false and never
signals an error, while the cpp_implementation zone test throws
std::out_of_range (it never reaches a boolean result). -/
theorem C4_unknown_zone (x y : ℚ) (zone : String) (h : BLIND_SPOT_ZONES zone = none) :
    is_in_blind_spot x y zone = false ∧
    isInBlindSpot x y zone = Except.error "std::out_of_range" := by
  constructor
  · unfold is_in_blind_spot
    rw [h]
  · unfold isInBlindSpot
    rw [h]

/-- C4 witness: the amended statement evaluated at the unknown zone front. -/
theorem C4_witness :
    BLIND_SPOT_ZONES "front" = none ∧
    (is_in_blind_spot 0 0 "front" = false ∧
     isInBlindSpot 0 0 "front" = Except.error "std::out_of_range") :=
  ⟨rfl, C4_unknown_zone 0 0 "front" rfl⟩

/-- C5 counterexample: two coincident degenerate boxes do not overlap
(intersection area 0) and both have non-positive area, yet IoU is the float
division 0/0, i.e. NaN (modelled none), not 0. -/
theorem C5_counterexample :
    interArea ⟨0, 0, 0, 0, 1, 0⟩ ⟨0, 0, 0, 0, 1, 0⟩ = 0 ∧
    area (⟨0, 0, 0, 0, 1, 0⟩ : Det) ≤ 0 ∧
    IoU ⟨0, 0, 0, 0, 1, 0⟩ ⟨0, 0, 0, 0, 1, 0⟩ ≠ some 0 := by
  have h1 : interArea (⟨0, 0, 0, 0, 1, 0⟩ : Det) ⟨0, 0, 0, 0, 1, 0⟩ = 0 := by
    norm_num [interArea]
  have h2 : unionArea (⟨0, 0, 0, 0, 1, 0⟩ : Det) ⟨0, 0, 0, 0, 1, 0⟩ = 0 := by
    norm_num [unionArea, area, h1]
  refine ⟨h1, by norm_num [area], ?_⟩
  rw [IoU, if_pos h2]
  exact fun h => Option.noConfusion h

/-- C5 (amended): IoU returns 0 whenever the boxes do not overlap or either
box has non-positive area, provided the union area is nonzero; when the
union area is zero (e.g. both boxes degenerate) the division 0/0 produces
NaN instead. -/
theorem C5_iou_zero (a b : Det) (hu : unionArea a b ≠ 0)
    (h : interArea a b = 0 ∨ area a ≤ 0 ∨ area b ≤ 0) : IoU a b = some 0 := by
  have hnn := interArea_nonneg a b
  have hi : interArea a b = 0 := by
    rcases h with h | h | h
    · exact h
    · rcases eq_or_lt_of_le hnn with he | hgt
      · exact he.symm
      · exact absurd (interArea_pos_areas hgt).1 (not_lt.mpr h)
    · rcases eq_or_lt_of_le hnn with he | hgt
      · exact he.symm
      · exact absurd (interArea_pos_areas hgt).2 (not_lt.mpr h)
  unfold IoU
  rw [if_neg hu, hi, zero_div]

/-- C5 witness: the amended statement evaluated on two disjoint unit boxes. -/
theorem C5_witness :
    unionArea ⟨0, 0, 1, 1, 1, 0⟩ ⟨5, 5, 6, 6, 1, 0⟩ ≠ 0 ∧
    interArea ⟨0, 0, 1, 1, 1, 0⟩ ⟨5, 5, 6, 6, 1, 0⟩ = 0 ∧
    IoU ⟨0, 0, 1, 1, 1, 0⟩ ⟨5, 5, 6, 6, 1, 0⟩ = some 0 := by
  have hi : interArea (⟨0, 0, 1, 1, 1, 0⟩ : Det) ⟨5, 5, 6, 6, 1, 0⟩ = 0 := by
    norm_num [interArea, min_def, max_def]
  have hu : unionArea (⟨0, 0, 1, 1, 1, 0⟩ : Det) ⟨5, 5, 6, 6, 1, 0⟩ ≠ 0 := by
    norm_num [unionArea, area, hi]
  exact ⟨hu, hi, C5_iou_zero ⟨0, 0, 1, 1, 1, 0⟩ ⟨5, 5, 6, 6, 1, 0⟩ hu (Or.inl hi)⟩

/-- C9 counterexample: the running backend publisher, given the empty
detection list, still performs one sink call (payload: the empty JSON
array) instead of performing none. -/
theorem C9_counterexample :
    send_detections ⟨true, true⟩ [] = [Json.arr []] ∧ ([Json.arr []] : List Json) ≠ [] :=
  ⟨rfl, by simp⟩

/-- C9 (amended): a running Publisher given the empty detection list still
performs exactly one sink call carrying an empty detections array (the
cpp_implementation variant additionally returns success), and it is the
orchestrator call site, not the Publisher, that skips the sink entirely
when the per-camera detection list is empty. -/
theorem C9_empty_publish (st : ProducerState) (h : st.is_running = true)
    (h2 : st.hasProducer = true) (now : ℤ) :
    send_detections st [] = [Json.arr []] ∧
    sendDetections now [] =
      ([Json.obj [("type", Json.str "detections"), ("timestamp", Json.num now),
                  ("detections", Json.arr [])]], true) ∧
    publishStep st [] = [] := by
  refine ⟨?_, rfl, rfl⟩
  unfold send_detections
  rw [h, h2]
  rfl

/-- C9 witness: the amended statement at a running producer state. -/
theorem C9_witness :
    (⟨true, true⟩ : ProducerState).is_running = true ∧
    (send_detections ⟨true, true⟩ [] = [Json.arr []] ∧
     sendDetections 0 [] =
       ([Json.obj [("type", Json.str "detections"), ("timestamp", Json.num 0),
                   ("detections", Json.arr [])]], true) ∧
     publishStep ⟨true, true⟩ [] = []) :=
  ⟨rfl, C9_empty_publish ⟨true, true⟩ rfl rfl 0⟩

/-- C6: every candidate retained by the first stage of the Detection Filter
has confidence at least the configured threshold, a class id in the
allow-list, positive box width and height, and a clipped pixel area of at
least 10000; and a candidate violating the confidence bound, the allow-list,
the positivity of width/height, or the minimum clipped area is dropped. -/
theorem C6_first_stage_gate :
    (∀ (W H : ℤ) (c : RawCandidate) (r : Rect) (conf : ℚ) (cid : ℤ),
      candidateGate W H c = some (r, conf, cid) →
        MODEL_CONFIDENCE ≤ conf ∧ (OBJECT_CLASSES cid).isSome = true ∧
        0 < c.w ∧ 0 < c.h ∧ cx1 c < cx2 c ∧ cy1 c < cy2 c ∧
        r = clippedBox W H c ∧ 10000 ≤ r.width * r.height) ∧
    (∀ (W H : ℤ) (c : RawCandidate), c.confidence < MODEL_CONFIDENCE →
      candidateGate W H c = none) ∧
    (∀ (W H : ℤ) (c : RawCandidate), OBJECT_CLASSES (classId c) = none →
      candidateGate W H c = none) ∧
    (∀ (W H : ℤ) (c : RawCandidate), c.w ≤ 0 ∨ c.h ≤ 0 →
      candidateGate W H c = none) ∧
    (∀ (W H : ℤ) (c : RawCandidate),
      (clippedBox W H c).width * (clippedBox W H c).height < 10000 →
      candidateGate W H c = none) := by
  refine ⟨?_, ?_, ?_, ?_, ?_⟩
  · intro W H c r conf cid h
    unfold candidateGate at h
    split_ifs at h with h1 h2 h3 h4
    rw [Option.some_inj, Prod.mk.injEq, Prod.mk.injEq] at h
    obtain ⟨hr, hconf, hcid⟩ := h
    push_neg at h2
    obtain ⟨hx, hy, hw, hh⟩ := h2
    have hl := labelAllowed_cases h1.2
    refine ⟨hconf ▸ h1.1.le, ?_, hw, hh, hx, hy, hr.symm, ?_⟩
    · rw [hcid] at hl
      rcases hl with hl | hl <;> simp [hl]
    · rw [← hr]
      exact not_lt.mp h4
  · intro W H c hconf
    have : ¬(MODEL_CONFIDENCE < c.confidence ∧ labelAllowed (classId c) = true) :=
      fun hc => absurd hc.1 (not_lt.mpr hconf.le)
    simp only [candidateGate, if_neg this]
  · intro W H c hoc
    have hl : labelAllowed (classId c) = false := by
      unfold labelAllowed
      rw [hoc]
    simp [candidateGate, hl]
  · intro W H c h
    unfold candidateGate
    split_ifs with h1 h2 h3 _
    all_goals try rfl
    all_goals exact absurd (Or.inr (Or.inr h)) h2
  · intro W H c h
    unfold candidateGate
    split_ifs with h1 h2 h3 _
    all_goals rfl

/-- C6 witness: the gate evaluated on a retained candidate and on four
dropped ones, one per rejection reason. -/
theorem C6_witness :
    candidateGate 640 480 ⟨320, 240, 200, 200, 9/10, 0⟩
      = some (⟨220, 140, 200, 200⟩, 9/10, 0) ∧
    MODEL_CONFIDENCE ≤ 9/10 ∧
    candidateGate 640 480 ⟨320, 240, 200, 200, 1/8, 0⟩ = none ∧
    candidateGate 640 480 ⟨320, 240, 200, 200, 9/10, 7⟩ = none ∧
    candidateGate 640 480 ⟨320, 240, -10, 200, 9/10, 0⟩ = none ∧
    candidateGate 640 480 ⟨320, 240, 50, 50, 9/10, 0⟩ = none := by
  have hg : candidateGate 640 480 ⟨320, 240, 200, 200, 9/10, 0⟩
      = some (⟨220, 140, 200, 200⟩, 9/10, 0) := by
    norm_num [candidateGate, labelAllowed, OBJECT_CLASSES, classId, ratTrunc, cx1, cx2, cy1,
      cy2, clippedBox, rectInter, MODEL_CONFIDENCE, min_def, max_def]
  refine ⟨hg, (C6_first_stage_gate.1 640 480 _ _ _ _ hg).1, ?_, ?_, ?_, ?_⟩
  · exact C6_first_stage_gate.2.1 640 480 _ (by norm_num [ MODEL_CONFIDENCE])
  · exact C6_first_stage_gate.2.2.1 640 480 _ (by simp [OBJECT_CLASSES, classId, ratTrunc])
  · exact C6_first_stage_gate.2.2.2.1 640 480 _ (Or.inl (by norm_num))
  · exact C6_first_stage_gate.2.2.2.2 640 480 _
      (by norm_num [clippedBox, rectInter, cx1, cx2, cy1, cy2, ratTrunc, min_def, max_def])

/-- C10: a motorcycle candidate (class id 3, which is in the allow-list) is
always dropped by the candidate gate regardless of its confidence, and every
Detection the per-camera pipeline produces is labelled person or car. -/
theorem C10_person_car_only :
    (∀ (W H : ℤ) (c : RawCandidate), classId c = 3 → candidateGate W H c = none) ∧
    (∀ (W H : ℤ) (zone : String) (now : ℚ) (cands : List RawCandidate)
       (sel : List (Rect × ℚ × ℤ)),
      (∀ t ∈ sel, t ∈ gatedCandidates W H cands) →
      ∀ d ∈ perCameraDetections W H zone now sel,
        d.object = "person" ∨ d.object = "car") := by
  constructor
  · intro W H c h
    have hl : labelAllowed (classId c) = false := by
      rw [h]
      rfl
    simp [candidateGate, hl]
  · intro W H zone now cands sel hsel d hd
    unfold perCameraDetections at hd
    rw [List.mem_map] at hd
    obtain ⟨t, ht, rfl⟩ := hd
    have hg := hsel t (mem_capStage ht)
    unfold gatedCandidates at hg
    rw [List.mem_filterMap] at hg
    obtain ⟨c, _, hgate⟩ := hg
    rcases gate_label hgate with hl | hl <;> simp [calculate_detection, hl]

/-- C10 witness: a high-confidence motorcycle candidate is dropped, and the
pipeline output of a person candidate is labelled person or car. -/
theorem C10_witness :
    candidateGate 640 480 ⟨320, 240, 200, 200, 9/10, 3⟩ = none ∧
    (∀ d ∈ perCameraDetections 640 480 "left" 0
        (gatedCandidates 640 480 [⟨320, 240, 200, 200, 9/10, 0⟩]),
      d.object = "person" ∨ d.object = "car") :=
  ⟨C10_person_car_only.1 640 480 _ (by simp [classId, ratTrunc]),
   C10_person_car_only.2 640 480 "left" 0 _ _ (fun t ht => ht)⟩

/-! ## Lemmas about the greedy suppression pass -/

theorem suppressLoop_sublist (thr : ℚ) (l : List Det) :
    ∀ acc, (suppressLoop thr acc l).Sublist l := by
  induction l with
  | nil => intro acc; simp [suppressLoop]
  | cons d rest ih =>
    intro acc
    rw [suppressLoop]
    split
    · exact (ih acc).cons d
    · exact (ih (acc ++ [d])).cons₂ d

theorem suppressLoop_not_suppressed (thr : ℚ) (l : List Det) :
    ∀ acc, ∀ e ∈ suppressLoop thr acc l, ∀ a ∈ acc, suppressedBy thr a e = false := by
  induction l with
  | nil => intro acc e he; rw [suppressLoop] at he; exact absurd he (List.not_mem_nil e)
  | cons d rest ih =>
    intro acc e he a ha
    rw [suppressLoop] at he
    split at he
    · exact ih acc e he a ha
    · rcases List.mem_cons.mp he with rfl | he2
      · rename_i hany
        have := List.any_eq_false.mp (Bool.of_not_eq_true hany) a ha
        simpa using this
      · exact ih (acc ++ [d]) e he2 a (List.mem_append_left _ ha)

theorem suppressLoop_pairwise (thr : ℚ) (l : List Det) :
    ∀ acc, (suppressLoop thr acc l).Pairwise fun a b => suppressedBy thr a b = false := by
  induction l with
  | nil => intro acc; rw [suppressLoop]; exact List.Pairwise.nil
  | cons d rest ih =>
    intro acc
    rw [suppressLoop]
    split
    · exact ih acc
    · refine List.Pairwise.cons ?_ (ih (acc ++ [d]))
      intro e he
      exact suppressLoop_not_suppressed thr rest (acc ++ [d]) e he d
        (List.mem_append_right _ (List.mem_singleton_self d))

theorem suppressLoop_fixpoint (thr : ℚ) (l : List Det) :
    ∀ acc, (l.Pairwise fun a b => suppressedBy thr a b = false) →
      (∀ e ∈ l, ∀ a ∈ acc, suppressedBy thr a e = false) →
      suppressLoop thr acc l = l := by
  induction l with
  | nil => intro acc _ _; rw [suppressLoop]
  | cons d rest ih =>
    intro acc hp hacc
    rw [suppressLoop]
    rw [if_neg ?_]
    · rw [ih (acc ++ [d]) (List.pairwise_cons.mp hp).2 ?_]
      intro e he a ha
      rcases List.mem_append.mp ha with ha | ha
      · exact hacc e (List.mem_cons_of_mem d he) a ha
      · rw [List.mem_singleton.mp ha]
        exact (List.pairwise_cons.mp hp).1 e he
    · intro hany
      rcases List.any_eq_true.mp hany with ⟨a, ha, hsup⟩
      rw [hacc d (List.mem_cons_self d rest) a ha] at hsup
      exact Bool.false_ne_true hsup

theorem nmsOutcome_filter_self {iouThr confThr : ℚ} {input out : List Det}
    (h : nmsOutcome iouThr confThr input out) :
    out.filter (confPass confThr) = out := by
  obtain ⟨s, ⟨hperm, _⟩, rfl⟩ := h
  refine List.filter_eq_self.mpr ?_
  intro d hd
  exact List.of_mem_filter (hperm.subset ((suppressLoop_sublist iouThr s []).subset hd))

theorem nmsOutcome_pairwise_confGE {iouThr confThr : ℚ} {input out : List Det}
    (h : nmsOutcome iouThr confThr input out) : out.Pairwise confGE := by
  obtain ⟨s, ⟨_, hsort⟩, rfl⟩ := h
  exact hsort.sublist (suppressLoop_sublist iouThr s [])

theorem nmsOutcome_suppressLoop_self {iouThr confThr : ℚ} {input out : List Det}
    (h : nmsOutcome iouThr confThr input out) : suppressLoop iouThr [] out = out := by
  obtain ⟨s, ⟨_, _⟩, rfl⟩ := h
  exact suppressLoop_fixpoint iouThr _ [] (suppressLoop_pairwise iouThr s [])
    (fun e _ a ha => absurd ha (List.not_mem_nil a))

theorem sorted_perm_distinct_eq {l1 l2 : List Det} (hp : l1.Perm l2)
    (h1 : l1.Pairwise confGE) (h2 : l2.Pairwise confGE)
    (hd : l1.Pairwise fun a b => a.confidence ≠ b.confidence) : l1 = l2 := by
  induction l1 generalizing l2 with
  | nil => exact (hp.symm.eq_nil).symm
  | cons x t1 ih =>
    rcases l2 with _ | ⟨y, t2⟩
    · exact absurd (hp.eq_nil) (List.cons_ne_nil x t1)
    · have hxy : x = y := by
        by_contra hne
        have hx2 : x ∈ y :: t2 := hp.subset (List.mem_cons_self x t1)
        have hy1 : y ∈ x :: t1 := hp.symm.subset (List.mem_cons_self y t2)
        rcases List.mem_cons.mp hx2 with he | hx2t
        · exact hne he
        rcases List.mem_cons.mp hy1 with he | hy1t
        · exact hne he.symm
        have hle1 : x.confidence ≤ y.confidence := List.rel_of_pairwise_cons h2 hx2t
        have hle2 : y.confidence ≤ x.confidence := List.rel_of_pairwise_cons h1 hy1t
        exact (List.rel_of_pairwise_cons hd hy1t) (le_antisymm hle1 hle2)
      subst hxy
      rw [ih hp.cons_inv (List.pairwise_cons.mp h1).2 (List.pairwise_cons.mp h2).2
        (List.pairwise_cons.mp hd).2]

/-- C7 counterexample: the equal-confidence list of a person box and a
disjoint car box is itself an admissible Detection Filter output, yet
re-filtering it admissibly returns the reordered list: under the std::sort
contract, applying the filter to its own output need not return that
output unchanged. -/
theorem C7_counterexample :
    nmsOutcome (1/2) (1/4) [⟨0, 0, 2, 2, 1, 0⟩, ⟨20, 20, 21, 21, 1, 2⟩]
      [⟨0, 0, 2, 2, 1, 0⟩, ⟨20, 20, 21, 21, 1, 2⟩] ∧
    nmsOutcome (1/2) (1/4) [⟨0, 0, 2, 2, 1, 0⟩, ⟨20, 20, 21, 21, 1, 2⟩]
      [⟨20, 20, 21, 21, 1, 2⟩, ⟨0, 0, 2, 2, 1, 0⟩] ∧
    ([⟨20, 20, 21, 21, 1, 2⟩, ⟨0, 0, 2, 2, 1, 0⟩] : List Det)
      ≠ [⟨0, 0, 2, 2, 1, 0⟩, ⟨20, 20, 21, 21, 1, 2⟩] := by
  have hfil : List.filter (confPass (1/4)) [(⟨0, 0, 2, 2, 1, 0⟩ : Det), ⟨20, 20, 21, 21, 1, 2⟩]
      = [⟨0, 0, 2, 2, 1, 0⟩, ⟨20, 20, 21, 21, 1, 2⟩] := by
    norm_num [List.filter_cons, confPass]
  refine ⟨⟨[⟨0, 0, 2, 2, 1, 0⟩, ⟨20, 20, 21, 21, 1, 2⟩], ⟨?_, ?_⟩, ?_⟩,
    ⟨[⟨20, 20, 21, 21, 1, 2⟩, ⟨0, 0, 2, 2, 1, 0⟩], ⟨?_, ?_⟩, ?_⟩, ?_⟩
  · rw [hfil]
  · norm_num [List.pairwise_cons, confGE]
  · simp [suppressLoop, suppressedBy]
  · rw [hfil]
    exact List.Perm.swap _ _ _
  · norm_num [List.pairwise_cons, confGE]
  · simp [suppressLoop, suppressedBy]
  · intro h
    norm_num [List.cons.injEq, Det.mk.injEq] at h

/-- C7 (amended): the Detection Filter is idempotent up to the unspecified
std::sort tie order: every admissible filter output is an admissible
result of re-filtering itself; re-filtering is exactly the identity
whenever the output's confidences are pairwise distinct, and in particular
on every at-most-one-element output arising under the configured cap 1. -/
theorem C7_refilter :
    (∀ (iouThr confThr : ℚ) (input out : List Det),
      nmsOutcome iouThr confThr input out → nmsOutcome iouThr confThr out out) ∧
    (∀ (iouThr confThr : ℚ) (input out out2 : List Det),
      nmsOutcome iouThr confThr input out →
      (out.Pairwise fun a b => a.confidence ≠ b.confidence) →
      nmsOutcome iouThr confThr out out2 → out2 = out) ∧
    (∀ (iouThr confThr : ℚ) (d : Det), confPass confThr d = true →
      ∀ out2, nmsOutcome iouThr confThr [d] out2 → out2 = [d]) := by
  refine ⟨?_, ?_, ?_⟩
  · intro thr ct input out h
    refine ⟨out, ⟨?_, nmsOutcome_pairwise_confGE h⟩, (nmsOutcome_suppressLoop_self h).symm⟩
    rw [nmsOutcome_filter_self h]
  · intro thr ct input out out2 h hdist h2
    obtain ⟨s2, ⟨hperm2, hsort2⟩, rfl⟩ := h2
    rw [nmsOutcome_filter_self h] at hperm2
    have heq : out = s2 :=
      sorted_perm_distinct_eq hperm2.symm (nmsOutcome_pairwise_confGE h) hsort2 hdist
    rw [← heq]
    exact nmsOutcome_suppressLoop_self h
  · intro thr ct d hconf out2 h2
    obtain ⟨s2, ⟨hperm2, _⟩, rfl⟩ := h2
    rw [show List.filter (confPass ct) [d] = [d] by simp [List.filter_cons, hconf]] at hperm2
    rw [List.perm_singleton.mp hperm2]
    simp [suppressLoop]

/-- C7 witness: the amended statement on a filter output with distinct
confidences and on a singleton output, where re-filtering is the identity. -/
theorem C7_witness :
    nmsOutcome (1/2) (1/4) [⟨0, 0, 2, 2, 1, 0⟩, ⟨20, 20, 21, 21, 1/2, 2⟩]
      [⟨0, 0, 2, 2, 1, 0⟩, ⟨20, 20, 21, 21, 1/2, 2⟩] ∧
    ([⟨0, 0, 2, 2, 1, 0⟩, ⟨20, 20, 21, 21, 1/2, 2⟩] : List Det)
      = [⟨0, 0, 2, 2, 1, 0⟩, ⟨20, 20, 21, 21, 1/2, 2⟩] ∧
    ([⟨0, 0, 2, 2, 1, 0⟩] : List Det) = [⟨0, 0, 2, 2, 1, 0⟩] := by
  have hout : nmsOutcome (1/2) (1/4) [⟨0, 0, 2, 2, 1, 0⟩, ⟨20, 20, 21, 21, 1/2, 2⟩]
      [⟨0, 0, 2, 2, 1, 0⟩, ⟨20, 20, 21, 21, 1/2, 2⟩] := by
    refine ⟨[⟨0, 0, 2, 2, 1, 0⟩, ⟨20, 20, 21, 21, 1/2, 2⟩], ⟨?_, ?_⟩, ?_⟩
    · rw [show List.filter (confPass (1/4)) [(⟨0, 0, 2, 2, 1, 0⟩ : Det), ⟨20, 20, 21, 21, 1/2, 2⟩]
          = [⟨0, 0, 2, 2, 1, 0⟩, ⟨20, 20, 21, 21, 1/2, 2⟩] by
        norm_num [List.filter_cons, confPass]]
    · norm_num [List.pairwise_cons, confGE]
    · simp [suppressLoop, suppressedBy]
  have hdist : ([⟨0, 0, 2, 2, 1, 0⟩, ⟨20, 20, 21, 21, 1/2, 2⟩] : List Det).Pairwise
      fun a b => a.confidence ≠ b.confidence := by
    norm_num [List.pairwise_cons]
  have hsing : nmsOutcome (1/2) (1/4) [⟨0, 0, 2, 2, 1, 0⟩] [⟨0, 0, 2, 2, 1, 0⟩] := by
    refine ⟨[⟨0, 0, 2, 2, 1, 0⟩], ⟨?_, ?_⟩, ?_⟩
    · rw [show List.filter (confPass (1/4)) [(⟨0, 0, 2, 2, 1, 0⟩ : Det)]
          = [⟨0, 0, 2, 2, 1, 0⟩] by norm_num [List.filter_cons, confPass]]
    · simp
    · simp [suppressLoop]
  have h1 := C7_refilter.1 (1/2) (1/4) _ _ hout
  exact ⟨h1, C7_refilter.2.1 (1/2) (1/4) _ _ _ hout hdist h1,
    C7_refilter.2.2 (1/2) (1/4) ⟨0, 0, 2, 2, 1, 0⟩
      (by norm_num [confPass]) _ hsing⟩

/-- C2 counterexample: for the input [A, B] with equal confidences, the
std::sort contract of the NMS ranking admits the outcome [B, A], in which
the equal-confidence pair appears in reversed discovery order, and both
orders are admissible outcomes: the ranking is not the claimed stable
deterministic one. -/
theorem C2_counterexample :
    nmsOutcome (1/2) (1/4) [⟨0, 0, 1, 1, 1, 0⟩, ⟨10, 10, 11, 11, 1, 1⟩]
      [⟨0, 0, 1, 1, 1, 0⟩, ⟨10, 10, 11, 11, 1, 1⟩] ∧
    nmsOutcome (1/2) (1/4) [⟨0, 0, 1, 1, 1, 0⟩, ⟨10, 10, 11, 11, 1, 1⟩]
      [⟨10, 10, 11, 11, 1, 1⟩, ⟨0, 0, 1, 1, 1, 0⟩] ∧
    (⟨0, 0, 1, 1, 1, 0⟩ : Det).confidence = (⟨10, 10, 11, 11, 1, 1⟩ : Det).confidence ∧
    ([⟨10, 10, 11, 11, 1, 1⟩, ⟨0, 0, 1, 1, 1, 0⟩] : List Det)
      ≠ [⟨0, 0, 1, 1, 1, 0⟩, ⟨10, 10, 11, 11, 1, 1⟩] := by
  have hfil : List.filter (confPass (1/4)) [(⟨0, 0, 1, 1, 1, 0⟩ : Det), ⟨10, 10, 11, 11, 1, 1⟩]
      = [⟨0, 0, 1, 1, 1, 0⟩, ⟨10, 10, 11, 11, 1, 1⟩] := by
    norm_num [List.filter_cons, confPass]
  refine ⟨⟨[⟨0, 0, 1, 1, 1, 0⟩, ⟨10, 10, 11, 11, 1, 1⟩], ⟨?_, ?_⟩, ?_⟩,
    ⟨[⟨10, 10, 11, 11, 1, 1⟩, ⟨0, 0, 1, 1, 1, 0⟩], ⟨?_, ?_⟩, ?_⟩, rfl, ?_⟩
  · rw [hfil]
  · norm_num [List.pairwise_cons, confGE]
  · simp [suppressLoop, suppressedBy]
  · rw [hfil]
    exact List.Perm.swap _ _ _
  · norm_num [List.pairwise_cons, confGE]
  · simp [suppressLoop, suppressedBy]
  · intro h
    norm_num [List.cons.injEq, Det.mk.injEq] at h

/-- C2 (amended): every admissible result of the NMS ranking under the
std::sort contract is sorted by confidence descending, and whenever the
surviving candidates have pairwise distinct confidences the result is
unique, hence deterministic; tie order among equal confidences is
unspecified because std::sort is not stable. -/
theorem C2_sort_guarantees :
    (∀ (iouThr confThr : ℚ) (input out : List Det),
      nmsOutcome iouThr confThr input out → out.Pairwise confGE) ∧
    (∀ (iouThr confThr : ℚ) (input out1 out2 : List Det),
      ((input.filter (confPass confThr)).Pairwise fun a b => a.confidence ≠ b.confidence) →
      nmsOutcome iouThr confThr input out1 → nmsOutcome iouThr confThr input out2 →
      out1 = out2) := by
  constructor
  · rintro thr ct input out ⟨s, ⟨_, hsort⟩, rfl⟩
    exact hsort.sublist (suppressLoop_sublist thr s [])
  · rintro thr ct input out1 out2 hdist ⟨s1, ⟨hperm1, hsort1⟩, rfl⟩ ⟨s2, ⟨hperm2, hsort2⟩, rfl⟩
    have hd1 : s1.Pairwise fun a b => a.confidence ≠ b.confidence :=
      (List.Perm.pairwise_iff (fun {_ _} h => Ne.symm h) hperm1).mpr hdist
    rw [sorted_perm_distinct_eq (hperm1.trans hperm2.symm) hsort1 hsort2 hd1]

/-- C2 witness: the amended statement on a two-element input with distinct
confidences, where the admissible outcome is unique. -/
theorem C2_witness :
    nmsOutcome (1/2) (1/4) [⟨0, 0, 1, 1, 1, 0⟩, ⟨10, 10, 11, 11, 1/2, 1⟩]
      [⟨0, 0, 1, 1, 1, 0⟩, ⟨10, 10, 11, 11, 1/2, 1⟩] ∧
    ([⟨0, 0, 1, 1, 1, 0⟩, ⟨10, 10, 11, 11, 1/2, 1⟩] : List Det).Pairwise confGE ∧
    ([⟨0, 0, 1, 1, 1, 0⟩, ⟨10, 10, 11, 11, 1/2, 1⟩] : List Det)
      = [⟨0, 0, 1, 1, 1, 0⟩, ⟨10, 10, 11, 11, 1/2, 1⟩] := by
  have hout : nmsOutcome (1/2) (1/4) [⟨0, 0, 1, 1, 1, 0⟩, ⟨10, 10, 11, 11, 1/2, 1⟩]
      [⟨0, 0, 1, 1, 1, 0⟩, ⟨10, 10, 11, 11, 1/2, 1⟩] := by
    refine ⟨[⟨0, 0, 1, 1, 1, 0⟩, ⟨10, 10, 11, 11, 1/2, 1⟩], ⟨?_, ?_⟩, ?_⟩
    · rw [show List.filter (confPass (1/4)) [(⟨0, 0, 1, 1, 1, 0⟩ : Det), ⟨10, 10, 11, 11, 1/2, 1⟩]
          = [⟨0, 0, 1, 1, 1, 0⟩, ⟨10, 10, 11, 11, 1/2, 1⟩] by
        norm_num [List.filter_cons, confPass]]
    · norm_num [List.pairwise_cons, confGE]
    · simp [suppressLoop, suppressedBy]
  refine ⟨hout, C2_sort_guarantees.1 (1/2) (1/4) _ _ hout,
    C2_sort_guarantees.2 (1/2) (1/4) _ _ _ ?_ hout hout⟩
  rw [show List.filter (confPass (1/4)) [(⟨0, 0, 1, 1, 1, 0⟩ : Det), ⟨10, 10, 11, 11, 1/2, 1⟩]
      = [⟨0, 0, 1, 1, 1, 0⟩, ⟨10, 10, 11, 11, 1/2, 1⟩] by
    norm_num [List.filter_cons, confPass]]
  norm_num [List.pairwise_cons]

/-- C8: evaluating the reconnect loop of processCameraFeeds with both
cameras Degraded for 100 consecutive cycles: because the reconnectAttempt
counter is a static local shared by all cameras, camera 1 receives a
reconnect attempt in cycles 50 and 100 (every 50 cycles, twice per 100)
while camera 0 receives none at all, contradicting one bounded reconnect
attempt per Degraded session every 100 cycles. -/
theorem C8_shared_reconnect_counter :
    ((runLoop (fun _ => ⟨fun _ _ => false, fun _ => false⟩) 100
        [⟨0, "left", false⟩, ⟨1, "right", false⟩] 0).2.2.flatten.count 0 = 0) ∧
    ((runLoop (fun _ => ⟨fun _ _ => false, fun _ => false⟩) 100
        [⟨0, "left", false⟩, ⟨1, "right", false⟩] 0).2.2.flatten.count 1 = 2) ∧
    ((runLoop (fun _ => ⟨fun _ _ => false, fun _ => false⟩) 100
        [⟨0, "left", false⟩, ⟨1, "right", false⟩] 0).2.2.length = 100) := by
  refine ⟨?_, ?_, ?_⟩ <;> decide

end SafeDetect
